import Mathlib

/-!
Verification of the haaukins exercise lifecycle controller
(`src/exercise/exercise.go`) and the event config store
(`src/store/event.go`) against their natural-language specification.

The Go code is shallowly embedded: collaborators (docker host, network,
vbox library, per-instance start/stop/close primitives) become an explicit
environment of pure oracle functions, the controller's mutable fields
become an explicit state record, and each method becomes a Lean function
from environment and state to an outcome.  Machine integers are modelled
as `Int`/`Nat`; Go's `nil` slice for the IP table is modelled as
`Option (List Int)` (`none` = nil).  An out-of-range slice index (a Go
panic) is modelled as a distinguished `panic` outcome.
-/

namespace Haaukins

/-- Errors returned by collaborators (Go `error` values). -/
abbrev Err := String

/-- Opaque handle to a live container or VM (`virtual.Instance`). -/
abbrev Instance := Nat

/-- Character class `[a-z0-9]` of the tag regex `^[a-z0-9][a-z0-9-]*[a-z0-9]$`
(`tagRawRegexp` in exercise.go line 18). -/
def isTagEdge (c : Char) : Bool :=
  (decide ('a' ≤ c) && decide (c ≤ 'z')) || (decide ('0' ≤ c) && decide (c ≤ '9'))

/-- Character class `[a-z0-9-]` of the tag regex. -/
def isTagMid (c : Char) : Bool :=
  isTagEdge c || decide (c = '-')

/-- Matcher for the suffix `[a-z0-9-]*[a-z0-9]$` of the anchored tag regex:
all characters but the last lie in `[a-z0-9-]`, the last in `[a-z0-9]`.
(Since `[a-z0-9] ⊆ [a-z0-9-]`, this deterministic reading is equivalent to
the regex's nondeterministic star.) -/
def tagMatchAux : List Char → Bool
  | [] => false
  | [c] => isTagEdge c
  | c :: c2 :: rest => isTagMid c && tagMatchAux (c2 :: rest)

/-- Full-match semantics of `tagRegex = ^[a-z0-9][a-z0-9-]*[a-z0-9]$`:
first character in `[a-z0-9]`, then at least one more character matching
`[a-z0-9-]*[a-z0-9]`. -/
def tagMatch (s : String) : Bool :=
  match s.data with
  | [] => false
  | c :: rest => isTagEdge c && tagMatchAux rest

/-- The language of the regex, denotationally: some decomposition
`first :: middle ++ [last]` with the classes as in the pattern. -/
def TagLang (l : List Char) : Prop :=
  ∃ a m b, l = a :: (m ++ [b]) ∧ isTagEdge a = true ∧
    (∀ c ∈ m, isTagMid c = true) ∧ isTagEdge b = true

lemma tagMatchAux_iff (l : List Char) :
    tagMatchAux l = true ↔
      ∃ m b, l = m ++ [b] ∧ (∀ c ∈ m, isTagMid c = true) ∧ isTagEdge b = true := by
  induction l with
  | nil =>
      simp only [tagMatchAux]
      constructor
      · intro h; cases h
      · rintro ⟨m, b, h, -, -⟩
        exact absurd h (by simp)
  | cons c rest ih =>
      cases rest with
      | nil =>
          simp only [tagMatchAux]
          constructor
          · intro h
            exact ⟨[], c, by simp, by simp, h⟩
          · rintro ⟨m, b, h, -, hb⟩
            cases m with
            | nil =>
                simp only [List.nil_append, List.cons.injEq] at h
                simpa [h.1] using hb
            | cons x xs =>
                exfalso
                have := congrArg List.length h
                simp at this
      | cons c2 rest2 =>
          simp only [tagMatchAux, Bool.and_eq_true, ih]
          constructor
          · rintro ⟨hc, m, b, h, hm, hb⟩
            exact ⟨c :: m, b, by simp [h], by
              intro x hx
              rcases List.mem_cons.mp hx with rfl | hx
              · exact hc
              · exact hm x hx, hb⟩
          · rintro ⟨m, b, h, hm, hb⟩
            cases m with
            | nil =>
                exfalso
                have := congrArg List.length h
                simp at this
            | cons x xs =>
                have hx : x = c := by
                  have := congrArg (List.headD · ' ') h
                  simpa using this.symm
                refine ⟨hx ▸ hm x (by simp), xs, b, ?_, ?_, hb⟩
                · have := congrArg List.tail h
                  simpa using this
                · intro y hy
                  exact hm y (by simp [hy])

lemma tagMatch_iff_lang (s : String) : tagMatch s = true ↔ TagLang s.data := by
  unfold tagMatch TagLang
  cases s.data with
  | nil =>
      constructor
      · intro h; cases h
      · rintro ⟨a, m, b, h, -⟩
        exact absurd h (by simp)
  | cons c rest =>
      simp only [Bool.and_eq_true, tagMatchAux_iff]
      constructor
      · rintro ⟨hc, m, b, h, hm, hb⟩
        exact ⟨c, m, b, by simp [h], hc, hm, hb⟩
      · rintro ⟨a, m, b, h, ha, hm, hb⟩
        have hac : a = c := by
          have := congrArg (List.headD · ' ') h
          simpa using this.symm
        have hrest : rest = m ++ [b] := by
          have := congrArg List.tail h
          simpa using this
        exact ⟨hac ▸ ha, m, b, hrest, hm, hb⟩

/-- The positional reading of validity used by the specification: length at
least two, first and last characters in `[a-z0-9]`, interior characters in
`[a-z0-9-]`. -/
def TagValidSpec (l : List Char) : Prop :=
  2 ≤ l.length ∧
  (∀ c, l[0]? = some c → isTagEdge c = true) ∧
  (∀ c, l[l.length - 1]? = some c → isTagEdge c = true) ∧
  (∀ i c, 0 < i → i + 1 < l.length → l[i]? = some c → isTagMid c = true)

lemma tagLang_iff_spec (l : List Char) : TagLang l ↔ TagValidSpec l := by
  constructor
  · rintro ⟨a, m, b, rfl, ha, hm, hb⟩
    refine ⟨by simp, ?_, ?_, ?_⟩
    · intro c hc
      simp at hc
      exact hc ▸ ha
    · intro c hc
      have hlen : (a :: (m ++ [b])).length - 1 = m.length + 1 := by simp
      rw [hlen] at hc
      have : (a :: (m ++ [b]))[m.length + 1]? = some b := by
        simp [List.getElem?_cons_succ]
      rw [this] at hc
      cases hc
      exact hb
    · intro i c hi hi1 hc
      rcases Nat.exists_eq_add_of_lt hi with ⟨j, rfl⟩
      simp only [Nat.zero_add] at *
      have hjm : j < m.length := by
        simp only [List.length_cons, List.length_append, List.length_nil] at hi1
        omega
      have heq : (a :: (m ++ [b]))[j + 1]? = m[j]? := by
        simpa using List.getElem?_append_left hjm
      rw [heq] at hc
      exact hm c (List.mem_iff_getElem?.mpr ⟨j, hc⟩)
  · rintro ⟨hlen, h0, hl, hmid⟩
    cases l with
    | nil => simp at hlen
    | cons a rest =>
        cases hback : rest.getLast? with
        | none =>
            rcases List.getLast?_eq_none_iff.mp hback with rfl
            simp at hlen
        | some b =>
            rcases (List.getLast?_eq_some_iff).mp hback with ⟨m, rfl⟩
            refine ⟨a, m, b, rfl, h0 a (by simp), ?_, ?_⟩
            · intro c hc
              rcases List.mem_iff_getElem.mp hc with ⟨j, hj, rfl⟩
              refine hmid (j + 1) _ (Nat.succ_pos j) (by simp; omega) ?_
              have heq : (a :: (m ++ [b]))[j + 1]? = m[j]? := by
                simpa using List.getElem?_append_left hj
              rw [heq]
              exact List.getElem?_eq_getElem hj
            · refine hl b ?_
              have hlen' : (a :: (m ++ [b])).length - 1 = m.length + 1 := by simp
              rw [hlen']
              simp [List.getElem?_cons_succ]

/-- Modelled from the spec: the container spec (`docker.ContainerConfig`)
is defined outside the provided sources; per §6 it carries an image and
(the field mutated by Create, line 50) a DNS resolver list. -/
structure ContainerSpec where
  image : String
  dns : List String
deriving DecidableEq, Repr

/-- Modelled from the spec: the DNS record template (`RecordConfig`) is
defined outside the provided sources; per §3 it is `{type, name, target}`,
the target being the `RData` field defaulted by Create (lines 79-84). -/
structure RecordConfig where
  rtype : String
  name : String
  rdata : String
deriving DecidableEq, Repr

/-- The collaborators consumed by the controller, as pure oracles.
Provisioning oracles additionally take the index of the call, so that a
stateful daemon (different results for successive calls) is representable. -/
structure Env where
  /-- `e.dockerHost.CreateContainer spec` at container index `i`. -/
  createContainer : Nat → ContainerSpec → Except Err Instance
  /-- `e.net.Connect(c, ip)` — fixed-address variant (line 62). -/
  connectFixed : Instance → Int → Except Err Int
  /-- `e.net.Connect(c)` — automatic assignment (line 68), at auto-call index `i`. -/
  connectAuto : Instance → Nat → Except Err Int
  /-- `e.net.FormatIP lastDigit` (line 76). -/
  formatIP : Int → String
  /-- `e.net.Interface()` (line 92). -/
  netInterface : String
  /-- `e.lib.GetCopy(image, SetBridge ...)` at VM index `i` (line 90). -/
  getCopy : Nat → String → Except Err Instance
  /-- `m.Start()` on an instance; `none` = success. -/
  instStart : Instance → Option Err
  /-- `m.Stop()` on an instance; `none` = success. -/
  instStop : Instance → Option Err
  /-- `m.Close()` on an instance; `none` = success. -/
  instClose : Instance → Option Err

/-- The controller's state: the fields of `exercise` that Create/Start/
Stop/Restart/Reset/Close read or write.  `containerOpts` pairs each
container spec with its DNS record templates (modelled from the spec:
`e.conf.ContainerOpts()` returns the two index-aligned lists of line 45);
`ips = none` models Go's nil slice (`e.ips == nil`). -/
structure ExState where
  containerOpts : List (ContainerSpec × List RecordConfig)
  vboxConfig : List String
  machines : List Instance
  ips : Option (List Int)
  dnsIP : String
  dnsRecords : List RecordConfig
deriving DecidableEq, Repr

/-- Outcome of an operation that can return an error (leaving a state) or
hit an out-of-range slice index (a Go panic: no defined result). -/
inductive CreateOut
  | ok (s : ExState)
  | err (e : Err) (s : ExState)
  | panic
deriving DecidableEq, Repr

/-- Outcome of the container loop of Create (lines 49-87): on success the
locally built machine list, the per-container assigned last-digits, and the
records appended to `e.dnsRecords`; on failure the error and the records
appended before it; or a panic. -/
inductive LoopOut
  | ok (machines : List Instance) (digits : List Int) (recs : List RecordConfig)
  | fail (e : Err) (recs : List RecordConfig)
  | panic
deriving DecidableEq, Repr

/-- The connect step of one iteration (lines 60-74): with a non-nil IP
table the container at index `i` is connected to `e.ips[i]` (an
out-of-range index is a panic, `none`); with a nil table the network
assigns automatically. -/
def connectStep (env : Env) (ips : Option (List Int)) (c : Instance) (i : Nat) :
    Option (Except Err Int) :=
  match ips with
  | some l =>
      match l[i]? with
      | none => none
      | some ip => some (env.connectFixed c ip)
  | none => some (env.connectAuto c i)

/-- DNS record synthesis for one container (lines 79-84): a template with
empty `RData` gets the container's formatted address, any other template is
passed through unchanged. -/
def synthRecords (ipaddr : String) (recs : List RecordConfig) : List RecordConfig :=
  recs.map fun r => if r.rdata = "" then { r with rdata := ipaddr } else r

/-- The container loop of Create (lines 49-87), starting at index `i`. -/
def containerLoop (env : Env) (dnsIP : String) (ips : Option (List Int)) :
    List (ContainerSpec × List RecordConfig) → Nat → LoopOut
  | [], _ => .ok [] [] []
  | (spec, recs) :: rest, i =>
    match env.createContainer i { spec with dns := [dnsIP] } with
    | .error e => .fail e []
    | .ok c =>
      match connectStep env ips c i with
      | none => .panic
      | some (.error e) => .fail e []
      | some (.ok lastDigit) =>
        let newRecs := synthRecords (env.formatIP lastDigit) recs
        match containerLoop env dnsIP ips rest (i + 1) with
        | .panic => .panic
        | .fail e recs2 => .fail e (newRecs ++ recs2)
        | .ok ms ds recs2 => .ok (c :: ms) (lastDigit :: ds) (newRecs ++ recs2)

/-- The VM loop of Create (lines 89-98), starting at index `i`. -/
def vmLoop (env : Env) : List String → Nat → Except Err (List Instance)
  | [], _ => .ok []
  | img :: rest, i =>
    match env.getCopy i img with
    | .error e => .error e
    | .ok vm =>
      match vmLoop env rest (i + 1) with
      | .error e => .error e
      | .ok vms => .ok (vm :: vms)

/-- `(e *exercise) Create()` (lines 44-107).  The machine list is built in
a local variable and only assigned on full success (line 104); the IP table
is only assigned when it was nil (lines 100-102); `e.dnsRecords` is
appended to in place during the loop (line 83), so a failure keeps the
records appended before it. -/
def Create (env : Env) (s : ExState) : CreateOut :=
  match containerLoop env s.dnsIP s.ips s.containerOpts 0 with
  | .panic => .panic
  | .fail e recs => .err e { s with dnsRecords := s.dnsRecords ++ recs }
  | .ok ms ds recs =>
    match vmLoop env s.vboxConfig 0 with
    | .error e => .err e { s with dnsRecords := s.dnsRecords ++ recs }
    | .ok vms =>
      .ok { s with
            machines := ms ++ vms,
            dnsRecords := s.dnsRecords ++ recs,
            ips := if s.ips.isNone then (if ds.isEmpty then none else some ds) else s.ips }

/-- Run a per-instance primitive over a machine list in order, fail-fast:
returns the instances on which it was invoked (in order) and the first
error, if any (the shape shared by Start, Stop and Close, lines 109-136). -/
def runSeq (f : Instance → Option Err) : List Instance → List Instance × Option Err
  | [] => ([], none)
  | m :: ms =>
    match f m with
    | some e => ([m], some e)
    | none =>
      let (t, r) := runSeq f ms
      (m :: t, r)

/-- `(e *exercise) Start()` (lines 109-116): trace of start calls and result. -/
def StartT (env : Env) (s : ExState) : List Instance × Option Err :=
  runSeq env.instStart s.machines

/-- `(e *exercise) Stop()` (lines 118-126): trace of stop calls and result. -/
def StopT (env : Env) (s : ExState) : List Instance × Option Err :=
  runSeq env.instStop s.machines

/-- `(e *exercise) Close()` (lines 128-136): trace of close calls, result,
and the state afterwards — `e.machines = nil` only runs after the loop
finished without error. -/
def CloseT (env : Env) (s : ExState) : List Instance × Option Err × ExState :=
  match runSeq env.instClose s.machines with
  | (t, some e) => (t, some e, s)
  | (t, none) => (t, none, { s with machines := [] })

/-- An event in an instrumented run: which primitive on which instance. -/
inductive Ev
  | stopEv (i : Instance)
  | startEv (i : Instance)
deriving DecidableEq, Repr

/-- `(e *exercise) Restart()` (lines 138-148): Stop, then Start only if
Stop succeeded; the combined event trace and the result. -/
def RestartT (env : Env) (s : ExState) : List Ev × Option Err :=
  match StopT env s with
  | (t, some e) => (t.map Ev.stopEv, some e)
  | (t, none) =>
    match StartT env s with
    | (t2, r) => (t.map Ev.stopEv ++ t2.map Ev.startEv, r)

/-- The Start step at the end of Reset (lines 159-161): surface a start
failure, otherwise succeed with the created state. -/
def startOutcome (env : Env) (s2 : ExState) : CreateOut :=
  match StartT env s2 with
  | (_, some e) => .err e s2
  | (_, none) => .ok s2

/-- The Create-then-Start tail of Reset (lines 155-161). -/
def resetTail (env : Env) (out : CreateOut) : CreateOut :=
  match out with
  | .panic => .panic
  | .err e s2 => .err e s2
  | .ok s2 => startOutcome env s2

/-- `(e *exercise) Reset()` (lines 150-164): Close, then Create, then
Start, short-circuiting on the first failure. -/
def Reset (env : Env) (s : ExState) : CreateOut :=
  match CloseT env s with
  | (_, some e, s1) => .err e s1
  | (_, none, s1) => resetTail env (Create env s1)

/-- Map with the element's index, starting at `i` (used to state in which
order Create consumes its specs). -/
def idxMap (f : Nat → α → β) : List α → Nat → List β
  | [], _ => []
  | a :: as, i => f i a :: idxMap f as (i + 1)

/-- The last-digit Create obtains for the container at index `i`, when the
collaborators behave as `cf` (container creation), `da` (auto connect) and
`df` (fixed connect): on the reuse path the requested address is the IP
table's entry at `i`. -/
def assignedDigit (cf : Nat → ContainerSpec → Instance) (da : Instance → Nat → Int)
    (df : Instance → Int → Int) (ips : Option (List Int)) (dnsIP : String)
    (i : Nat) (spec : ContainerSpec) : Int :=
  match ips with
  | none => da (cf i { spec with dns := [dnsIP] }) i
  | some l => df (cf i { spec with dns := [dnsIP] }) (l.getD i 0)

/-- The event configuration (`store.EventConfig`), times modelled as `Nat`
and the nilable `FinishedAt` pointer as an `Option`. -/
structure EventConfig where
  name : String
  tag : String
  available : Int
  capacity : Int
  startedAt : Option Nat
  finishedAt : Option Nat

/-- A post-mutation hook (`func(EventConfig) error`); `none` = success. -/
abbrev Hook := EventConfig → Option Err

/-- `eventconfigstore` (event.go lines 122-126): the current config and the
hooks registered at construction. -/
structure ECStore where
  conf : EventConfig
  hooks : List Hook

/-- `runHooks` (event.go lines 160-168): invoke the hooks in registration
order on the current config, stopping at the first error; returns how many
hooks were invoked and the first error, if any. -/
def runHooks : List Hook → EventConfig → Nat × Option Err
  | [], _ => (0, none)
  | h :: hs, c =>
    match h c with
    | some e => (1, some e)
    | none =>
      let (n, r) := runHooks hs c
      (n + 1, r)

/-- `SetCapacity` (event.go lines 142-149): mutate `conf.Capacity`, then run
the hooks on the mutated config; returns the new store, the number of hooks
invoked, and the operation's result. -/
def SetCapacity (st : ECStore) (n : Int) : ECStore × Nat × Option Err :=
  let conf := { st.conf with capacity := n }
  let (k, r) := runHooks st.hooks conf
  ({ st with conf := conf }, k, r)

/-- `Finish` (event.go lines 151-158): set `conf.FinishedAt`, then run the
hooks on the mutated config. -/
def Finish (st : ECStore) (t : Nat) : ECStore × Nat × Option Err :=
  let conf := { st.conf with finishedAt := some t }
  let (k, r) := runHooks st.hooks conf
  ({ st with conf := conf }, k, r)

/-- Whether a Create outcome is a success. -/
def CreateOut.isOk : CreateOut → Bool
  | .ok _ => true
  | _ => false

/-- The error surfaced by a Create outcome, if any. -/
def CreateOut.errOf : CreateOut → Option Err
  | .err e _ => some e
  | _ => none

/-- The controller state after a Create outcome (the given default in the
undefined panic case). -/
def CreateOut.stateD : CreateOut → ExState → ExState
  | .ok s, _ => s
  | .err _ s, _ => s
  | .panic, d => d

/-- A collaborator environment in which every call succeeds: container `i`
becomes instance `100 + i`, an automatically assigned digit is `10 + i`, a
fixed-address request is honored verbatim, VM `j` becomes instance `200 + j`,
and every instance primitive succeeds. -/
def demoEnv : Env where
  createContainer := fun i _ => .ok (100 + i)
  connectFixed := fun _ ip => .ok ip
  connectAuto := fun _ i => .ok (10 + (i : Int))
  formatIP := fun d => "172.16.5." ++ toString d
  netInterface := "eth0"
  getCopy := fun j _ => .ok (200 + j)
  instStart := fun _ => none
  instStop := fun _ => none
  instClose := fun _ => none

/-- The behavior functions describing `demoEnv`'s collaborators. -/
def demoCf : Nat → ContainerSpec → Instance := fun i _ => 100 + i

/-- Auto-connect behavior of `demoEnv`. -/
def demoDa : Instance → Nat → Int := fun _ i => 10 + (i : Int)

/-- Fixed-connect behavior of `demoEnv`. -/
def demoDf : Instance → Int → Int := fun _ ip => ip

/-- VM-provisioning behavior of `demoEnv`. -/
def demoVf : Nat → String → Instance := fun j _ => 200 + j

/-- `demoEnv` with the second container-provisioning call failing. -/
def failSecondEnv : Env :=
  { demoEnv with createContainer := fun i _ => if i = 0 then .ok 100 else .error "boom" }

/-- `demoEnv` with `Stop` failing on instance 1. -/
def failStopEnv : Env :=
  { demoEnv with instStop := fun m => if m = 1 then some "stopfail" else none }

/-- `demoEnv` with `Close` failing on instance 1. -/
def failCloseEnv : Env :=
  { demoEnv with instClose := fun m => if m = 1 then some "closefail" else none }

/-- An A-record template with an empty target, to be defaulted by Create. -/
def demoRecord : RecordConfig := { rtype := "A", name := "srv.ex", rdata := "" }

/-- An alias record template with an explicit target, passed through. -/
def demoAlias : RecordConfig := { rtype := "CNAME", name := "alias.ex", rdata := "srv.ex" }

/-- A two-container, one-VM exercise spec in a fresh controller. -/
def demoState : ExState where
  containerOpts := [({ image := "img0", dns := [] }, [demoRecord, demoAlias]),
                    ({ image := "img1", dns := [] }, [])]
  vboxConfig := ["vm0"]
  machines := []
  ips := none
  dnsIP := "172.16.5.3"
  dnsRecords := []

/-- A one-container exercise spec in a fresh controller. -/
def oneState : ExState where
  containerOpts := [({ image := "img0", dns := [] }, [demoRecord])]
  vboxConfig := []
  machines := []
  ips := none
  dnsIP := "172.16.5.3"
  dnsRecords := []

/-- `demoState` with a non-nil IP table shorter than the container list. -/
def shortIpsState : ExState := { demoState with ips := some [5] }

/-- `demoState` with a non-nil IP table of matching length. -/
def okIpsState : ExState := { demoState with ips := some [5, 6] }

/-- A controller state holding three live instances. -/
def machinesState : ExState := { demoState with machines := [0, 1, 2] }

/-- The A-record of `demoRecord` after defaulting against digit 10. -/
def synthARecord : RecordConfig := { rtype := "A", name := "srv.ex", rdata := "172.16.5.10" }

/-- The state produced by `Create demoEnv oneState`. -/
def oneS1 : ExState :=
  { oneState with machines := [100], ips := some [10], dnsRecords := [synthARecord] }

/-- The state produced by `Reset demoEnv oneS1`. -/
def oneS2 : ExState :=
  { oneState with
    machines := [100]
    ips := some [10]
    dnsRecords := [synthARecord, synthARecord] }

/-- The state produced by `Create demoEnv demoState`. -/
def demoS1 : ExState :=
  { demoState with
    machines := [100, 101, 200]
    ips := some [10, 11]
    dnsRecords := [synthARecord, demoAlias] }

/-- The state produced by `Reset demoEnv demoS1`. -/
def demoS2 : ExState :=
  { demoState with
    machines := [100, 101, 200]
    ips := some [10, 11]
    dnsRecords := [synthARecord, demoAlias, synthARecord, demoAlias] }

/-- The state Create leaves on `demoState` when the second container's
provisioning call fails: records of container 0 appended, machine list and
IP table untouched. -/
def failS1 : ExState := { demoState with dnsRecords := [synthARecord, demoAlias] }

/-- A concrete event configuration. -/
def demoConf : EventConfig where
  name := "ev"
  tag := "ev"
  available := 1
  capacity := 2
  startedAt := none
  finishedAt := none

/-- A hook that always succeeds. -/
def demoHookOk : Hook := fun _ => none

/-- A hook that always fails. -/
def demoHookFail : Hook := fun _ => some "hookfail"

/-- A store whose second registered hook fails. -/
def demoStore : ECStore := { conf := demoConf, hooks := [demoHookOk, demoHookFail, demoHookOk] }

/-- A store whose hooks all succeed. -/
def okStore : ECStore := { conf := demoConf, hooks := [demoHookOk, demoHookOk] }

section Lemmas

/-- A fail-fast sequence over `pre ++ m :: post` where everything in `pre`
succeeds and `m` fails: invoked on exactly `pre ++ [m]`, returns `m`'s error. -/
lemma runSeq_fail (f : Instance → Option Err) (pre : List Instance) (m : Instance)
    (post : List Instance) (e : Err) (hpre : ∀ x ∈ pre, f x = none)
    (hm : f m = some e) :
    runSeq f (pre ++ m :: post) = (pre ++ [m], some e) := by
  induction pre with
  | nil => simp [runSeq, hm]
  | cons x xs ih =>
      have hx : f x = none := hpre x (by simp)
      simp only [List.cons_append, runSeq, hx]
      rw [List.append_eq, ih (fun y hy => hpre y (by simp [hy]))]

/-- A fail-fast sequence where every element succeeds: invoked on all of
them, no error. -/
lemma runSeq_ok (f : Instance → Option Err) (l : List Instance)
    (h : ∀ x ∈ l, f x = none) : runSeq f l = (l, none) := by
  induction l with
  | nil => simp [runSeq]
  | cons x xs ih =>
      have hx : f x = none := h x (by simp)
      simp only [runSeq, hx]
      rw [ih (fun y hy => h y (by simp [hy]))]

/-- Hook runs where a leading block succeeds and the next hook fails:
exactly the block plus the failing hook are invoked, its error returned. -/
lemma runHooks_fail (pre : List Hook) (h : Hook) (post : List Hook)
    (c : EventConfig) (e : Err) (hpre : ∀ g ∈ pre, g c = none) (hh : h c = some e) :
    runHooks (pre ++ h :: post) c = (pre.length + 1, some e) := by
  induction pre with
  | nil => simp [runHooks, hh]
  | cons g gs ih =>
      have hg : g c = none := hpre g (by simp)
      simp only [List.cons_append, runHooks, hg]
      rw [List.append_eq, ih (fun y hy => hpre y (by simp [hy]))]
      simp [Nat.add_comm, Nat.add_assoc, Nat.add_left_comm]

/-- Hook runs where every hook succeeds: all invoked, no error. -/
lemma runHooks_ok (hs : List Hook) (c : EventConfig)
    (h : ∀ g ∈ hs, g c = none) : runHooks hs c = (hs.length, none) := by
  induction hs with
  | nil => simp [runHooks]
  | cons g gs ih =>
      have hg : g c = none := h g (by simp)
      simp only [runHooks, hg]
      rw [ih (fun y hy => h y (by simp [hy]))]
      simp [Nat.add_comm]

/-- Master lemma for the container loop when every collaborator call
succeeds (`cf`, `da`, `df` describing the collaborators' return values):
the loop returns the instances in spec order, the assigned digits in spec
order, and the per-container synthesized records concatenated in spec
order. -/
lemma containerLoop_ok (env : Env) (dnsIP : String) (ips : Option (List Int))
    (cf : Nat → ContainerSpec → Instance) (da : Instance → Nat → Int)
    (df : Instance → Int → Int)
    (hcf : ∀ i sp, env.createContainer i sp = .ok (cf i sp))
    (hda : ∀ c i, env.connectAuto c i = .ok (da c i))
    (hdf : ∀ c ip, env.connectFixed c ip = .ok (df c ip))
    (opts : List (ContainerSpec × List RecordConfig)) (i : Nat)
    (hbound : ∀ l, ips = some l → i + opts.length ≤ l.length) :
    containerLoop env dnsIP ips opts i =
      .ok (idxMap (fun j p => cf j { p.1 with dns := [dnsIP] }) opts i)
          (idxMap (fun j p => assignedDigit cf da df ips dnsIP j p.1) opts i)
          (idxMap (fun j p =>
              synthRecords (env.formatIP (assignedDigit cf da df ips dnsIP j p.1)) p.2)
            opts i).flatten := by
  induction opts generalizing i with
  | nil => simp [containerLoop, idxMap]
  | cons p rest ih =>
      obtain ⟨spec, recs⟩ := p
      have hconn : connectStep env ips (cf i { spec with dns := [dnsIP] }) i
          = some (.ok (assignedDigit cf da df ips dnsIP i spec)) := by
        cases hips : ips with
        | none => simp [connectStep, assignedDigit, hda]
        | some l =>
            have hlt : i < l.length := by
              have := hbound l hips
              simp only [List.length_cons] at this
              omega
            have hgd : l.getD i 0 = l[i] := by
              simp [List.getD_eq_getElem?_getD, List.getElem?_eq_getElem hlt]
            simp [connectStep, assignedDigit, List.getElem?_eq_getElem hlt, hgd, hdf]
      have hbound' : ∀ l, ips = some l → i + 1 + rest.length ≤ l.length := by
        intro l hl
        have := hbound l hl
        simp only [List.length_cons] at this
        omega
      simp only [containerLoop, hcf, hconn, ih (i + 1) hbound', idxMap,
        List.flatten_cons]

/-- The VM loop when every `GetCopy` call succeeds: VM instances in spec
order. -/
lemma vmLoop_ok (env : Env) (vf : Nat → String → Instance)
    (hvf : ∀ i img, env.getCopy i img = .ok (vf i img))
    (imgs : List String) (i : Nat) :
    vmLoop env imgs i = .ok (idxMap vf imgs i) := by
  induction imgs generalizing i with
  | nil => simp [vmLoop, idxMap]
  | cons img rest ih => simp only [vmLoop, hvf, ih (i + 1), idxMap]

/-- The container loop when every iteration over `pre` succeeds and the
container-provisioning call for the next spec fails: the loop surfaces that
error verbatim. -/
lemma containerLoop_fail_at (env : Env) (dnsIP : String) (ips : Option (List Int))
    (pre : List (ContainerSpec × List RecordConfig)) (spec : ContainerSpec)
    (recs0 : List RecordConfig) (rest : List (ContainerSpec × List RecordConfig))
    (i : Nat) (e : Err)
    (hc : ∀ j sp, i ≤ j → j < i + pre.length → ∃ c, env.createContainer j sp = .ok c)
    (hconn : ∀ c j, i ≤ j → j < i + pre.length →
      ∃ d, connectStep env ips c j = some (.ok d))
    (hfail : env.createContainer (i + pre.length) { spec with dns := [dnsIP] } = .error e) :
    ∃ rs, containerLoop env dnsIP ips (pre ++ (spec, recs0) :: rest) i = .fail e rs := by
  induction pre generalizing i with
  | nil =>
      simp only [List.length_nil, Nat.add_zero] at hfail
      exact ⟨[], by simp [containerLoop, hfail]⟩
  | cons p ps ih =>
      obtain ⟨sp1, rc1⟩ := p
      obtain ⟨c, hcok⟩ := hc i { sp1 with dns := [dnsIP] } (Nat.le_refl i)
        (by simp only [List.length_cons]; omega)
      obtain ⟨d, hdok⟩ := hconn c i (Nat.le_refl i)
        (by simp only [List.length_cons]; omega)
      obtain ⟨rs, hrs⟩ := ih (i + 1)
        (fun j sp hj hj' => hc j sp (by omega) (by simp only [List.length_cons]; omega))
        (fun c' j hj hj' => hconn c' j (by omega) (by simp only [List.length_cons]; omega))
        (by
          simp only [List.length_cons] at hfail
          have harith : i + (ps.length + 1) = i + 1 + ps.length := by omega
          rw [harith] at hfail
          exact hfail)
      refine ⟨synthRecords (env.formatIP d) rc1 ++ rs, ?_⟩
      simp only [List.cons_append, containerLoop, hcok, hdok]
      rw [List.append_eq, hrs]

/-- A nonempty container-spec list never yields an empty digit list. -/
lemma containerLoop_ok_digits_ne_nil (env : Env) (dnsIP : String)
    (ips : Option (List Int)) (p : ContainerSpec × List RecordConfig)
    (rest : List (ContainerSpec × List RecordConfig)) (i : Nat)
    (ms : List Instance) (ds : List Int) (rs : List RecordConfig)
    (h : containerLoop env dnsIP ips (p :: rest) i = .ok ms ds rs) : ds ≠ [] := by
  obtain ⟨spec, recs⟩ := p
  cases hcc : env.createContainer i { spec with dns := [dnsIP] } with
  | error e' => simp [containerLoop, hcc] at h
  | ok c =>
    cases hcs : connectStep env ips c i with
    | none => simp [containerLoop, hcc, hcs] at h
    | some r =>
      cases r with
      | error e' => simp [containerLoop, hcc, hcs] at h
      | ok d =>
        cases hrec : containerLoop env dnsIP ips rest (i + 1) with
        | panic => simp [containerLoop, hcc, hcs, hrec] at h
        | fail e' rs' => simp [containerLoop, hcc, hcs, hrec] at h
        | ok ms' ds' rs' =>
          simp only [containerLoop, hcc, hcs, hrec, LoopOut.ok.injEq] at h
          obtain ⟨-, h2, -⟩ := h
          subst h2
          simp

/-- A successful Create never changes the spec-derived fields. -/
lemma create_ok_spec_fields (env : Env) (s s' : ExState)
    (h : Create env s = .ok s') :
    s'.containerOpts = s.containerOpts ∧ s'.vboxConfig = s.vboxConfig ∧
      s'.dnsIP = s.dnsIP := by
  unfold Create at h
  split at h
  · cases h
  · cases h
  · split at h
    · cases h
    · cases h
      exact ⟨rfl, rfl, rfl⟩

/-- A successful Create never overwrites a non-nil IP table (lines
100-102 run only when `e.ips == nil`). -/
lemma create_ok_ips_some (env : Env) (s s' : ExState) (l : List Int)
    (hl : s.ips = some l) (h : Create env s = .ok s') : s'.ips = some l := by
  unfold Create at h
  split at h
  · cases h
  · cases h
  · split at h
    · cases h
    · cases h
      simp [hl]

/-- A successful Create from a nil IP table that leaves the table nil can
only have processed an empty container-spec list. -/
lemma create_ok_ips_none_opts_nil (env : Env) (s s' : ExState)
    (hn : s.ips = none) (h : Create env s = .ok s') (h' : s'.ips = none) :
    s.containerOpts = [] := by
  cases hopts : s.containerOpts with
  | nil => rfl
  | cons p rest =>
      exfalso
      unfold Create at h
      rw [hopts] at h
      split at h
      · cases h
      · cases h
      next ms ds rs heq =>
        split at h
        · cases h
        · cases h
          simp only [hn, Option.isNone_none, if_true] at h'
          have hds := containerLoop_ok_digits_ne_nil env s.dnsIP s.ips p rest 0 ms ds rs heq
          cases hde : ds.isEmpty with
          | true => exact hds (List.isEmpty_iff.mp hde)
          | false =>
              rw [hde] at h'
              simp at h'

/-- A successful Create from a nil IP table over an empty container-spec
list leaves the table nil. -/
lemma create_ok_ips_none_of_nil_opts (env : Env) (s s' : ExState)
    (hn : s.ips = none) (hopts : s.containerOpts = []) (h : Create env s = .ok s') :
    s'.ips = none := by
  unfold Create at h
  rw [hopts] at h
  simp only [containerLoop] at h
  split at h
  · cases h
  · cases h
    simp [hn]

/-- `idxMap` preserves length. -/
lemma idxMap_length (f : Nat → α → β) (l : List α) (i : Nat) :
    (idxMap f l i).length = l.length := by
  induction l generalizing i with
  | nil => rfl
  | cons a as ih => simp [idxMap, ih]

/-- On the reuse path, an IP table long enough for the remaining specs
rules out the out-of-range panic. -/
lemma containerLoop_no_panic (env : Env) (dnsIP : String) (l : List Int)
    (opts : List (ContainerSpec × List RecordConfig)) (i : Nat)
    (hb : i + opts.length ≤ l.length) :
    containerLoop env dnsIP (some l) opts i ≠ .panic := by
  induction opts generalizing i with
  | nil => simp [containerLoop]
  | cons p rest ih =>
      obtain ⟨spec, recs⟩ := p
      cases hcc : env.createContainer i { spec with dns := [dnsIP] } with
      | error e => simp [containerLoop, hcc]
      | ok c =>
          have hlt : i < l.length := by
            simp only [List.length_cons] at hb
            omega
          have hcs : connectStep env (some l) c i = some (env.connectFixed c l[i]) := by
            simp [connectStep, List.getElem?_eq_getElem hlt]
          cases hfx : env.connectFixed c l[i] with
          | error e => simp [containerLoop, hcc, hcs, hfx]
          | ok d =>
              have hrec := ih (i + 1) (by simp only [List.length_cons] at hb; omega)
              intro hcontra
              simp only [containerLoop, hcc, hcs, hfx] at hcontra
              cases h' : containerLoop env dnsIP (some l) rest (i + 1) with
              | ok ms ds rs => rw [h'] at hcontra; cases hcontra
              | fail e' rs => rw [h'] at hcontra; cases hcontra
              | panic => exact hrec h'

/-- Create with an index-aligned non-nil IP table never reaches the
out-of-range access. -/
lemma create_no_panic (env : Env) (s : ExState) (l : List Int)
    (hl : s.ips = some l) (hlen : l.length = s.containerOpts.length) :
    Create env s ≠ .panic := by
  intro h
  unfold Create at h
  cases hcl : containerLoop env s.dnsIP s.ips s.containerOpts 0 with
  | ok ms ds rs =>
      rw [hcl] at h
      cases hvm : vmLoop env s.vboxConfig 0 with
      | error e => rw [hvm] at h; cases h
      | ok vms => rw [hvm] at h; cases h
  | fail e rs => rw [hcl] at h; cases h
  | panic =>
      rw [hl] at hcl
      exact containerLoop_no_panic env s.dnsIP l s.containerOpts 0 (by omega) hcl

/-- `CloseT` never touches the IP table or the spec. -/
lemma closeT_fields (env : Env) (s : ExState) :
    ((CloseT env s).2.2).ips = s.ips ∧
      ((CloseT env s).2.2).containerOpts = s.containerOpts := by
  unfold CloseT
  cases hrs : runSeq env.instClose s.machines with
  | mk t r => cases r <;> simp

/-- Master lemma: Create under collaborators that all succeed, described by
the behavior functions `cf`, `da`, `df`, `vf`.  The resulting state is
fully determined: containers then VMs in spec order in the machine list,
synthesized records appended to the existing record set, the IP table
replaced by the assigned digits only when it was nil. -/
lemma create_ok_master (env : Env) (s : ExState)
    (cf : Nat → ContainerSpec → Instance) (da : Instance → Nat → Int)
    (df : Instance → Int → Int) (vf : Nat → String → Instance)
    (hcf : ∀ i sp, env.createContainer i sp = .ok (cf i sp))
    (hda : ∀ c i, env.connectAuto c i = .ok (da c i))
    (hdf : ∀ c ip, env.connectFixed c ip = .ok (df c ip))
    (hvf : ∀ i img, env.getCopy i img = .ok (vf i img))
    (hips : ∀ l, s.ips = some l → s.containerOpts.length ≤ l.length) :
    Create env s = .ok { s with
      machines :=
        idxMap (fun j p => cf j { p.1 with dns := [s.dnsIP] }) s.containerOpts 0 ++
          idxMap (fun j img => vf j img) s.vboxConfig 0,
      dnsRecords := s.dnsRecords ++
        (idxMap (fun j p =>
            synthRecords (env.formatIP (assignedDigit cf da df s.ips s.dnsIP j p.1)) p.2)
          s.containerOpts 0).flatten,
      ips :=
        if s.ips.isNone then
          (if (idxMap (fun j p => assignedDigit cf da df s.ips s.dnsIP j p.1)
                s.containerOpts 0).isEmpty
            then none
            else some (idxMap (fun j p => assignedDigit cf da df s.ips s.dnsIP j p.1)
                s.containerOpts 0))
        else s.ips } := by
  have hloop := containerLoop_ok env s.dnsIP s.ips cf da df hcf hda hdf s.containerOpts 0
    (fun l hl => by simpa using hips l hl)
  have hvm := vmLoop_ok env vf hvf s.vboxConfig 0
  unfold Create
  rw [hloop, hvm]

end Lemmas

/-- C8: the tag validator accepts a string iff it starts and ends with a
lowercase letter or digit, every interior character is a lowercase letter,
digit or hyphen, and its length is at least 2; in particular "abc-123" and
"ab" are accepted while "a", "-abc", "ABC", "" and "a_b" are rejected. -/
theorem C8_tag_validator :
    (∀ s : String, tagMatch s = true ↔ TagValidSpec s.data) ∧
    tagMatch "abc-123" = true ∧ tagMatch "ab" = true ∧
    tagMatch "a" = false ∧ tagMatch "-abc" = false ∧ tagMatch "ABC" = false ∧
    tagMatch "" = false ∧ tagMatch "a_b" = false := by
  refine ⟨fun s => (tagMatch_iff_lang s).trans (tagLang_iff_spec s.data),
    ?_, ?_, ?_, ?_, ?_, ?_, ?_⟩ <;> decide

/-- C6: Close() invokes the release primitive on each instance in machine-
list order; the first failure aborts the iteration, is returned, and leaves
the machine list unchanged; only when every release succeeds does the
machine list become empty. -/
theorem C6_close_fail_fast (env : Env) (s : ExState) :
    (∀ pre m post e, s.machines = pre ++ m :: post →
        (∀ x ∈ pre, env.instClose x = none) → env.instClose m = some e →
        CloseT env s = (pre ++ [m], some e, s)) ∧
    ((∀ x ∈ s.machines, env.instClose x = none) →
        CloseT env s = (s.machines, none, { s with machines := [] })) := by
  constructor
  · intro pre m post e hdecomp hpre hm
    unfold CloseT
    rw [hdecomp, runSeq_fail env.instClose pre m post e hpre hm]
  · intro h
    unfold CloseT
    rw [runSeq_ok env.instClose s.machines h]

/-- Witness for C6 on a concrete run: closing fails on the second of three
instances, so only the first two are released, the error surfaces, and the
machine list is kept; with all-succeeding closes the list empties. -/
theorem C6_close_fail_fast_witness :
    CloseT failCloseEnv machinesState = ([0, 1], some "closefail", machinesState) ∧
    CloseT demoEnv machinesState =
      ([0, 1, 2], none, { machinesState with machines := [] }) :=
  ⟨(C6_close_fail_fast failCloseEnv machinesState).1 [0] 1 [2] "closefail" rfl
      (by decide) rfl,
   (C6_close_fail_fast demoEnv machinesState).2 (by decide)⟩

/-- C7: in any instrumented run of Restart(), every stop invocation
precedes every start invocation, and if some stop call fails then
Restart() returns that error and no start call occurs. -/
theorem C7_restart_order (env : Env) (s : ExState) :
    (∃ (a b : List Instance),
        (RestartT env s).1 = List.map Ev.stopEv a ++ List.map Ev.startEv b) ∧
    (∀ e, (StopT env s).2 = some e →
        (RestartT env s).2 = some e ∧ ∀ m, Ev.startEv m ∉ (RestartT env s).1) := by
  rcases hstop : StopT env s with ⟨t, r⟩
  cases r with
  | some e' =>
      have hres : RestartT env s = (List.map Ev.stopEv t, some e') := by
        unfold RestartT
        rw [hstop]
      constructor
      · exact ⟨t, [], by rw [hres]; simp⟩
      · intro e he
        obtain rfl : e' = e := by simpa using he
        refine ⟨by rw [hres], ?_⟩
        intro m hm
        rw [hres] at hm
        simp only [List.mem_map] at hm
        rcases hm with ⟨x, -, hxx⟩
        cases hxx
  | none =>
      rcases hstart : StartT env s with ⟨t2, r2⟩
      have hres : RestartT env s =
          (List.map Ev.stopEv t ++ List.map Ev.startEv t2, r2) := by
        unfold RestartT
        rw [hstop, hstart]
      constructor
      · exact ⟨t, t2, by rw [hres]⟩
      · intro e he
        simp at he

/-- Witness for C7 on a concrete run: stop fails on the second instance,
Restart surfaces that error, and its trace holds no start event. -/
theorem C7_restart_order_witness :
    (∃ (a b : List Instance), (RestartT failStopEnv machinesState).1 =
        List.map Ev.stopEv a ++ List.map Ev.startEv b) ∧
    (RestartT failStopEnv machinesState).2 = some "stopfail" ∧
    ∀ m, Ev.startEv m ∉ (RestartT failStopEnv machinesState).1 :=
  ⟨(C7_restart_order failStopEnv machinesState).1,
   (C7_restart_order failStopEnv machinesState).2 "stopfail" (by decide)⟩

/-- C9: SetCapacity and Finish mutate the config first and then invoke the
hooks on the mutated config in registration order; the first failing hook
aborts the remaining ones and its error becomes the operation's result;
the mutation is not undone. -/
theorem C9_hooks_fail_fast :
    (∀ st n pre h post e, st.hooks = pre ++ h :: post →
        (∀ g ∈ pre, g { st.conf with capacity := n } = none) →
        h { st.conf with capacity := n } = some e →
        SetCapacity st n =
          ({ st with conf := { st.conf with capacity := n } }, pre.length + 1, some e)) ∧
    (∀ st n, (∀ g ∈ st.hooks, g { st.conf with capacity := n } = none) →
        SetCapacity st n =
          ({ st with conf := { st.conf with capacity := n } }, st.hooks.length, none)) ∧
    (∀ st t pre h post e, st.hooks = pre ++ h :: post →
        (∀ g ∈ pre, g { st.conf with finishedAt := some t } = none) →
        h { st.conf with finishedAt := some t } = some e →
        Finish st t =
          ({ st with conf := { st.conf with finishedAt := some t } },
            pre.length + 1, some e)) ∧
    (∀ st t, (∀ g ∈ st.hooks, g { st.conf with finishedAt := some t } = none) →
        Finish st t =
          ({ st with conf := { st.conf with finishedAt := some t } },
            st.hooks.length, none)) := by
  refine ⟨?_, ?_, ?_, ?_⟩
  · intro st n pre h post e hdec hpre hh
    simp only [SetCapacity]
    rw [hdec, runHooks_fail pre h post _ e hpre hh]
  · intro st n hall
    simp only [SetCapacity]
    rw [runHooks_ok st.hooks _ hall]
  · intro st t pre h post e hdec hpre hh
    simp only [Finish]
    rw [hdec, runHooks_fail pre h post _ e hpre hh]
  · intro st t hall
    simp only [Finish]
    rw [runHooks_ok st.hooks _ hall]

/-- Witness for C9 on concrete stores: with hooks ok-fail-ok, SetCapacity
applies the mutation, invokes two hooks and returns the failure; with all
hooks succeeding, Finish applies the mutation and returns success. -/
theorem C9_hooks_fail_fast_witness :
    SetCapacity demoStore 7 =
      ({ demoStore with conf := { demoConf with capacity := 7 } }, 2, some "hookfail") ∧
    Finish okStore 42 =
      ({ okStore with conf := { demoConf with finishedAt := some 42 } }, 2, none) :=
  ⟨C9_hooks_fail_fast.1 demoStore 7 [demoHookOk] demoHookFail [demoHookOk] "hookfail" rfl
      (by
        intro g hg
        rcases List.mem_singleton.mp hg with rfl
        rfl)
      rfl,
   C9_hooks_fail_fast.2.2.2 okStore 42
      (by
        intro g hg
        rcases List.mem_cons.mp hg with rfl | hg'
        · rfl
        · rcases List.mem_singleton.mp hg' with rfl
          rfl)⟩

/-- C10: on the reuse path Create indexes the IP table at each container's
position; when the table's length equals the number of container specs,
no access is out of range and Create never panics — while a concrete
non-empty table shorter than the container list drives Create into the
out-of-range access. -/
theorem C10_reuse_indexing :
    (∀ (env : Env) (s : ExState) (l : List Int), s.ips = some l →
        l.length = s.containerOpts.length → Create env s ≠ .panic) ∧
    Create demoEnv shortIpsState = .panic := by
  refine ⟨fun env s l hl hlen => create_no_panic env s l hl hlen, ?_⟩
  decide

/-- Witness for C10: with a matching-length table the concrete run does
not panic. -/
theorem C10_reuse_indexing_witness : Create demoEnv okIpsState ≠ .panic :=
  C10_reuse_indexing.1 demoEnv okIpsState [5, 6] rfl rfl

/-- C1 is false as stated: on a fresh two-container spec whose second
container-provisioning call fails (k = 2), Create surfaces the error
verbatim, but the machine list afterwards has 0 entries, not the k − 1 = 1
successfully created instance — the locally built list is only assigned to
the controller on full success. -/
theorem C1_counterexample :
    Create failSecondEnv demoState = .err "boom" failS1 ∧
    failSecondEnv.createContainer 0 { image := "img0", dns := [demoState.dnsIP] }
      = .ok 100 ∧
    failSecondEnv.createContainer 1 { image := "img1", dns := [demoState.dnsIP] }
      = .error "boom" ∧
    failS1.machines.length = 0 ∧ ¬ failS1.machines.length = 1 :=
  ⟨by decide, rfl, rfl, by decide, by decide⟩

/-- C1 amended: if the k-th container's provisioning call fails after k−1
fully successful iterations, Create returns that error unmodified, and the
controller's machine list and IP table are left exactly as they were
before the call (the k−1 created instances are not recorded in the machine
list). -/
theorem C1_amended_fail_leaves_machines (env : Env) (s : ExState)
    (pre rest : List (ContainerSpec × List RecordConfig)) (spec : ContainerSpec)
    (recs0 : List RecordConfig) (e : Err)
    (hdec : s.containerOpts = pre ++ (spec, recs0) :: rest)
    (hc : ∀ j sp, j < pre.length → ∃ c, env.createContainer j sp = .ok c)
    (hconn : ∀ c j, j < pre.length → ∃ d, connectStep env s.ips c j = some (.ok d))
    (hfail : env.createContainer pre.length { spec with dns := [s.dnsIP] } = .error e) :
    (Create env s).errOf = some e ∧
    ((Create env s).stateD s).machines = s.machines ∧
    ((Create env s).stateD s).ips = s.ips := by
  obtain ⟨rs, hrs⟩ := containerLoop_fail_at env s.dnsIP s.ips pre spec recs0 rest 0 e
    (fun j sp hj hj' => hc j sp (by omega))
    (fun c j hj hj' => hconn c j (by omega))
    (by simpa using hfail)
  unfold Create
  rw [hdec, hrs]
  exact ⟨rfl, rfl, rfl⟩

/-- Witness for the amended C1 on the concrete failing run. -/
theorem C1_amended_fail_leaves_machines_witness :
    (Create failSecondEnv demoState).errOf = some "boom" ∧
    ((Create failSecondEnv demoState).stateD demoState).machines = [] ∧
    ((Create failSecondEnv demoState).stateD demoState).ips = none := by
  have h := C1_amended_fail_leaves_machines failSecondEnv demoState
    [({ image := "img0", dns := [] }, [demoRecord, demoAlias])]
    [] { image := "img1", dns := [] } [] "boom" rfl
    (fun j sp hj => ⟨100, by
      have hj0 : j = 0 := Nat.lt_one_iff.mp hj
      subst hj0
      rfl⟩)
    (fun c j hj => ⟨10 + (j : Int), rfl⟩)
    rfl
  exact ⟨h.1, h.2.1.trans rfl, h.2.2.trans rfl⟩

/-- C2 is false as stated: the DNS record set is never rebuilt from
scratch.  On a one-container spec, Create synthesizes one record; the
Create inside the following Reset — same specs, same reused address —
leaves a record set of length two: the record from the earlier Create
persists and is duplicated. -/
theorem C2_counterexample :
    Create demoEnv oneState = .ok oneS1 ∧
    Reset demoEnv oneS1 = .ok oneS2 ∧
    oneS1.dnsRecords = [synthARecord] ∧
    oneS2.dnsRecords = oneS1.dnsRecords ++ oneS1.dnsRecords ∧
    ¬ oneS2.dnsRecords = oneS1.dnsRecords := by
  refine ⟨?_, ?_, ?_, ?_, ?_⟩ <;> decide

/-- C2 amended: under collaborators that all succeed, the record set after
Create() is the pre-call record set with this call's synthesized records
appended — records from earlier Create() calls persist in place. -/
theorem C2_amended_records_append (env : Env) (s : ExState)
    (cf : Nat → ContainerSpec → Instance) (da : Instance → Nat → Int)
    (df : Instance → Int → Int) (vf : Nat → String → Instance)
    (hcf : ∀ i sp, env.createContainer i sp = .ok (cf i sp))
    (hda : ∀ c i, env.connectAuto c i = .ok (da c i))
    (hdf : ∀ c ip, env.connectFixed c ip = .ok (df c ip))
    (hvf : ∀ i img, env.getCopy i img = .ok (vf i img))
    (hips : ∀ l, s.ips = some l → s.containerOpts.length ≤ l.length) :
    ((Create env s).stateD s).dnsRecords =
      s.dnsRecords ++
        (idxMap (fun j p =>
            synthRecords (env.formatIP (assignedDigit cf da df s.ips s.dnsIP j p.1)) p.2)
          s.containerOpts 0).flatten := by
  rw [create_ok_master env s cf da df vf hcf hda hdf hvf hips]
  rfl

/-- Witness for the amended C2: a Create on a controller already holding a
record keeps that record and appends the new one. -/
theorem C2_amended_records_append_witness :
    ((Create demoEnv oneS1).stateD oneS1).dnsRecords =
      oneS1.dnsRecords ++
        (idxMap (fun j p =>
            synthRecords (demoEnv.formatIP
              (assignedDigit demoCf demoDa demoDf oneS1.ips oneS1.dnsIP j p.1)) p.2)
          oneS1.containerOpts 0).flatten :=
  C2_amended_records_append demoEnv oneS1 demoCf demoDa demoDf demoVf
    (fun _ _ => rfl) (fun _ _ => rfl) (fun _ _ => rfl) (fun _ _ => rfl)
    (fun l hl => Option.some.inj hl ▸ (by decide))

/-- C3: after a successful Create from an empty IP table, a successful
Reset leaves the IP table identical — same entries in the same order —
whatever the collaborators do on the second run, because neither Close nor
a Create that sees a non-nil table touches it. -/
theorem C3_ip_table_stable (env1 env2 : Env) (s s1 s2 : ExState)
    (h0 : s.ips = none) (h1 : Create env1 s = .ok s1) (h2 : Reset env2 s1 = .ok s2) :
    s2.ips = s1.ips := by
  unfold Reset at h2
  rcases hclose : CloseT env2 s1 with ⟨t, r, s1c⟩
  rw [hclose] at h2
  have hcf := closeT_fields env2 s1
  rw [hclose] at hcf
  have hcf1 : s1c.ips = s1.ips := hcf.1
  have hcf2 : s1c.containerOpts = s1.containerOpts := hcf.2
  cases r with
  | some e => cases h2
  | none =>
      have h2' : resetTail env2 (Create env2 s1c) = CreateOut.ok s2 := h2
      clear h2
      cases hcr : Create env2 s1c with
      | panic => rw [hcr] at h2'; cases h2'
      | err e s2c => rw [hcr] at h2'; cases h2'
      | ok s2c =>
          rw [hcr] at h2'
          have h2'' : startOutcome env2 s2c = CreateOut.ok s2 := h2'
          clear h2'
          unfold startOutcome at h2''
          rcases hstart : StartT env2 s2c with ⟨t2, r2⟩
          rw [hstart] at h2''
          cases r2 with
          | some e => cases h2''
          | none =>
              injection h2'' with h2e
              subst h2e
              cases hips1 : s1.ips with
              | some l =>
                  have hc1 : s1c.ips = some l := by rw [hcf1, hips1]
                  rw [create_ok_ips_some env2 s1c s2c l hc1 hcr]
              | none =>
                  have hopts : s.containerOpts = [] :=
                    create_ok_ips_none_opts_nil env1 s s1 h0 h1 hips1
                  have hopts1 : s1.containerOpts = [] := by
                    rw [(create_ok_spec_fields env1 s s1 h1).1, hopts]
                  have hoptsc : s1c.containerOpts = [] := by rw [hcf2, hopts1]
                  have hc1 : s1c.ips = none := by rw [hcf1, hips1]
                  rw [create_ok_ips_none_of_nil_opts env2 s1c s2c hc1 hoptsc hcr]

/-- Witness for C3 on the concrete two-container run: the table after
Reset is `some [10, 11]`, exactly what the first Create produced. -/
theorem C3_ip_table_stable_witness : demoS2.ips = demoS1.ips :=
  C3_ip_table_stable demoEnv demoEnv demoState demoS1 demoS2 rfl (by decide) (by decide)

/-- C4: under collaborators that all succeed, Create succeeds and the
machine list is the container-backed instances in spec order followed by
the VM-backed instances in spec order, of length N + M. -/
theorem C4_create_machine_list (env : Env) (s : ExState)
    (cf : Nat → ContainerSpec → Instance) (da : Instance → Nat → Int)
    (df : Instance → Int → Int) (vf : Nat → String → Instance)
    (hcf : ∀ i sp, env.createContainer i sp = .ok (cf i sp))
    (hda : ∀ c i, env.connectAuto c i = .ok (da c i))
    (hdf : ∀ c ip, env.connectFixed c ip = .ok (df c ip))
    (hvf : ∀ i img, env.getCopy i img = .ok (vf i img))
    (hips : ∀ l, s.ips = some l → s.containerOpts.length ≤ l.length) :
    (Create env s).isOk = true ∧
    ((Create env s).stateD s).machines =
      idxMap (fun j p => cf j { p.1 with dns := [s.dnsIP] }) s.containerOpts 0 ++
        idxMap (fun j img => vf j img) s.vboxConfig 0 ∧
    ((Create env s).stateD s).machines.length =
      s.containerOpts.length + s.vboxConfig.length := by
  rw [create_ok_master env s cf da df vf hcf hda hdf hvf hips]
  refine ⟨rfl, rfl, ?_⟩
  simp [CreateOut.stateD, idxMap_length]

/-- Witness for C4 on the concrete two-container one-VM run: three
machines, containers 100 and 101 first, VM 200 last. -/
theorem C4_create_machine_list_witness :
    (Create demoEnv demoState).isOk = true ∧
    ((Create demoEnv demoState).stateD demoState).machines = [100, 101, 200] ∧
    ((Create demoEnv demoState).stateD demoState).machines.length = 3 := by
  have h := C4_create_machine_list demoEnv demoState demoCf demoDa demoDf demoVf
    (fun _ _ => rfl) (fun _ _ => rfl) (fun _ _ => rfl) (fun _ _ => rfl)
    (fun l hl => by cases hl)
  exact ⟨h.1, h.2.1.trans (by decide), h.2.2.trans (by decide)⟩

/-- C5: on a fresh controller with collaborators that all succeed, the
record set after Create holds, per container in processing order and per
template in template order, the template with its empty target replaced by
FormatIP of that container's assigned digit, and any non-empty target
unchanged. -/
theorem C5_dns_defaulting (env : Env) (s : ExState)
    (cf : Nat → ContainerSpec → Instance) (da : Instance → Nat → Int)
    (df : Instance → Int → Int) (vf : Nat → String → Instance)
    (hcf : ∀ i sp, env.createContainer i sp = .ok (cf i sp))
    (hda : ∀ c i, env.connectAuto c i = .ok (da c i))
    (hdf : ∀ c ip, env.connectFixed c ip = .ok (df c ip))
    (hvf : ∀ i img, env.getCopy i img = .ok (vf i img))
    (hips : ∀ l, s.ips = some l → s.containerOpts.length ≤ l.length)
    (hfresh : s.dnsRecords = []) :
    ((Create env s).stateD s).dnsRecords =
      (idxMap (fun j p =>
          p.2.map fun r =>
            if r.rdata = ""
            then { r with
                    rdata := env.formatIP (assignedDigit cf da df s.ips s.dnsIP j p.1) }
            else r)
        s.containerOpts 0).flatten := by
  rw [create_ok_master env s cf da df vf hcf hda hdf hvf hips]
  simp [CreateOut.stateD, hfresh, synthRecords]

/-- Witness for C5 on the concrete run: the empty-target A record gets the
formatted address of its container's digit, the alias passes through. -/
theorem C5_dns_defaulting_witness :
    ((Create demoEnv demoState).stateD demoState).dnsRecords =
      [synthARecord, demoAlias] := by
  have h := C5_dns_defaulting demoEnv demoState demoCf demoDa demoDf demoVf
    (fun _ _ => rfl) (fun _ _ => rfl) (fun _ _ => rfl) (fun _ _ => rfl)
    (fun l hl => by cases hl) rfl
  exact h.trans (by decide)

end Haaukins
